import Mathlib

/-!
Verification development for the mood-playlist classification and expansion
engine of the repository (the variants in apple_music_expanded_playlists.py,
apple_music_web_research_final.py, apple_music_web_research.py,
apple_music_research_based.py and apple_music_smart_research.py).

Strings are modelled as Lean strings; the Python substring test
`needle in hay` is modelled by `pyIn`, `str.lower()` by `lowerS`
(charwise `Char.toLower`, which agrees with Python on the ASCII data the
configs use), and the stable `sorted(..., reverse=True)` /
`list.sort(reverse=True)` by `pySortDesc` (Mathlib insertion sort, which is
stable, with the descending-by-key relation).

Python set objects that are used only for membership tests are modelled by
lists with `List.contains` (extensionally equal).  The one place where the
code turns a set into a list, `final_tracks = list(initial_names)` in
`expand_playlist`, exposes the unspecified hash-based enumeration order of
the Python runtime; that enumeration is made an explicit parameter
`initNamesEnum`, constrained by `validEnum` to enumerate exactly the set of
seed names.
-/

namespace MoodEngine

structure Track where
  name : String
  artist : String
  genre : String
deriving DecidableEq, Repr

/-- Model of Python string lowercasing (`str.lower()`), charwise. -/
def lowerS (s : String) : String := ⟨s.data.map Char.toLower⟩

/-- Helper for `pyIn`: contiguous-sublist test on char lists. -/
def subAt : List Char → List Char → Bool
  | needle, [] => needle.isEmpty
  | needle, c :: rest => needle.isPrefixOf (c :: rest) || subAt needle rest

/-- Model of the Python substring test `needle in hay`. -/
def pyIn (needle hay : String) : Bool := subAt needle.data hay.data

/-- Stable descending sort by an integer key: model of Python
`sorted(xs, key=..., reverse=True)` and `xs.sort(key=..., reverse=True)`,
which keep the original order of elements with equal keys. -/
def pySortDesc {α : Type} (key : α → Int) (l : List α) : List α :=
  l.insertionSort (fun a b => key b ≤ key a)

/-! ## apple_music_expanded_playlists.py -/

/-- The taxonomy declaration order shared by all variants
(the iteration order of the `self.mood_categories` / `self.mood_keywords`
dicts, which in Python is insertion order). -/
def moodOrder : List String :=
  ["Angry/Mad", "Heartbreak", "Workout/Go Time", "Calming", "In Love",
   "While Doing Homework"]

/-- `self.mood_keywords` of `ExpandedPlaylistOrganizer` (lines 16-49). -/
def expKeywords : String → List String
  | "Angry/Mad" =>
      ["metal", "hardcore", "punk", "screamo", "aggressive", "angry", "rage",
       "mad", "thrash", "death metal", "heavy", "intense", "loud",
       "distorted", "rock", "alternative rock", "grunge", "nu metal",
       "industrial"]
  | "Heartbreak" =>
      ["sad", "heartbreak", "breakup", "lonely", "crying", "tears",
       "melancholic", "emotional", "depressing", "blue", "hurt", "broken",
       "ballad", "slow", "soul", "r&b", "blues", "country", "folk",
       "acoustic"]
  | "Workout/Go Time" =>
      ["workout", "gym", "pump", "energy", "motivational", "inspirational",
       "uplifting", "intense", "fast", "beat", "driving", "power",
       "strength", "cardio", "running", "exercise", "fitness", "hip hop",
       "rap", "edm", "electronic", "dance", "house", "techno", "trap"]
  | "Calming" =>
      ["calm", "calming", "peaceful", "relaxing", "zen", "meditation",
       "ambient", "soft", "gentle", "soothing", "quiet", "tranquil",
       "serene", "lullaby", "spa", "yoga", "mindfulness", "new age",
       "nature sounds", "white noise"]
  | "In Love" =>
      ["romantic", "love", "in love", "sweet", "tender", "intimate",
       "passionate", "devotion", "adoration", "affection", "heart",
       "soulmate", "forever", "together", "couple", "wedding", "pop", "r&b",
       "soul", "jazz", "smooth"]
  | "While Doing Homework" =>
      ["instrumental", "classical", "study", "focus", "concentration",
       "background", "piano", "orchestral", "ambient", "lo-fi", "chill",
       "acoustic", "jazz", "study music", "homework", "productivity",
       "no lyrics", "post-rock", "cinematic", "soundtrack", "minimal"]
  | _ => []

/-- The string `f"{genre} {name} {artist}"` built from the lowercased fields
(`classify_track` lines 132-135 and `find_correlated_tracks` lines 196-199). -/
def combinedExp (t : Track) : String :=
  lowerS t.genre ++ " " ++ lowerS t.name ++ " " ++ lowerS t.artist

/-- `ExpandedPlaylistOrganizer.classify_track` (lines 129-145): a mood is
appended (in taxonomy order) when some keyword occurs in the combined
string; the inner loop breaks on the first matching keyword. -/
def classify_track_exp (t : Track) : List String :=
  moodOrder.foldl
    (fun moods mood =>
      if (expKeywords mood).any (fun kw => pyIn kw (combinedExp t)) then
        (if moods.contains mood then moods else moods ++ [mood])
      else moods)
    []

/-- Keys of a `collections.Counter` built from a list: first-occurrence
order (Python dicts preserve insertion order). -/
def firstOccs (l : List String) : List String :=
  l.foldl (fun acc s => if acc.contains s then acc else acc ++ [s]) []

/-- `Counter(l).most_common(n)`, keys only: entries sorted by count
descending, ties kept in first-occurrence order (`heapq.nlargest` is
documented to agree with `sorted(..., reverse=True)[:n]`, which is stable). -/
def mostCommon (l : List String) (n : Nat) : List String :=
  ((pySortDesc (fun p => p.2)
      ((firstOccs l).map (fun s => (s, (l.count s : Int))))).take n).map
    Prod.fst

/-- `ExpandedPlaylistOrganizer.find_similar_tracks` (lines 147-182). -/
def find_similar_tracks (seed alltr : List Track) (excl : List String)
    (target : Nat) : List String :=
  if seed.isEmpty then []
  else
    let topArtists :=
      mostCommon ((seed.filter (fun t => t.artist ≠ "")).map
        (fun t => lowerS t.artist)) 10
    let topGenres :=
      mostCommon ((seed.filter (fun t => t.genre ≠ "")).map
        (fun t => lowerS t.genre)) 5
    let similar := alltr.foldl
      (fun acc t =>
        if excl.contains t.name then acc
        else
          let ta := if t.artist ≠ "" then lowerS t.artist else ""
          let tg := if t.genre ≠ "" then lowerS t.genre else ""
          let sc : Int := (if topArtists.contains ta then 2 else 0) +
            (if topGenres.contains tg then 1 else 0)
          if 0 < sc then acc ++ [(sc, t.name)] else acc)
      []
    ((pySortDesc (fun p => p.1) similar).take target).map Prod.snd

/-- Loop of `find_correlated_tracks` (lines 192-208): excluded tracks are
skipped by `continue` (so they do not reach the length check); after a
non-excluded track is processed the loop breaks once `count` names were
collected. -/
def findCorrelatedAux (kws excl : List String) (count : Nat) :
    List Track → List String → List String
  | [], acc => acc
  | t :: rest, acc =>
    if excl.contains t.name then findCorrelatedAux kws excl count rest acc
    else
      let acc2 :=
        if kws.any (fun kw => pyIn kw (combinedExp t)) then acc ++ [t.name]
        else acc
      if count ≤ acc2.length then acc2
      else findCorrelatedAux kws excl count rest acc2

/-- `ExpandedPlaylistOrganizer.find_correlated_tracks` (lines 184-210). -/
def find_correlated_tracks (mood : String) (alltr : List Track)
    (excl : List String) (count : Nat) : List String :=
  (findCorrelatedAux (expKeywords mood) excl count alltr []).take count

/-- `ExpandedPlaylistOrganizer.expand_playlist` (lines 212-249).
`initNamesEnum` is the enumeration order the Python runtime produces for
the set `initial_names = {t['name'] for t in initial_tracks}` at line 216
(`final_tracks = list(initial_names)`); membership tests against that set
and its later updates are modelled by list membership, which does not
depend on the enumeration. -/
def expand_playlist (mood : String) (initNamesEnum : List String)
    (initial alltr : List Track) (target : Nat) : List String :=
  if target ≤ initNamesEnum.length then initNamesEnum.take target
  else
    let needed := target - initNamesEnum.length
    let similarNeeded := min 30 needed
    let similar :=
      if 0 < similarNeeded ∧ initial ≠ [] then
        find_similar_tracks initial alltr initNamesEnum similarNeeded
      else []
    let f1 := initNamesEnum ++ similar
    let correlatedNeeded := min 10 (target - f1.length)
    let correlated :=
      if 0 < correlatedNeeded then
        find_correlated_tracks mood alltr (initNamesEnum ++ similar)
          correlatedNeeded
      else []
    let f2 := f1 ++ correlated
    let more :=
      if f2.length < target then
        find_similar_tracks initial alltr (initial.map Track.name ++ f2)
          (target - f2.length)
      else []
    (f2 ++ more).take target

/-- Phases 0-2 of `expand_playlist` (up to and including the
keyword-correlation fallback), split out to state how the final phase is
seeded. -/
def expandPhase12 (mood : String) (initNamesEnum : List String)
    (initial alltr : List Track) (target : Nat) : List String :=
  if target ≤ initNamesEnum.length then initNamesEnum
  else
    let needed := target - initNamesEnum.length
    let similarNeeded := min 30 needed
    let similar :=
      if 0 < similarNeeded ∧ initial ≠ [] then
        find_similar_tracks initial alltr initNamesEnum similarNeeded
      else []
    let f1 := initNamesEnum ++ similar
    let correlatedNeeded := min 10 (target - f1.length)
    let correlated :=
      if 0 < correlatedNeeded then
        find_correlated_tracks mood alltr (initNamesEnum ++ similar)
          correlatedNeeded
      else []
    f1 ++ correlated

/-- Modelled from the spec: section 4.4 step 3 prescribes that the second
similarity pass repeats phase 1 "with the enlarged bucket as the new seed".
This variant differs from `expand_playlist` only in the final phase: its
seed is the original seed tracks plus the corpus tracks whose names were
added during phases 1 and 2, instead of the original seed tracks alone. -/
def expand_playlist_enlarged_reseed (mood : String)
    (initNamesEnum : List String) (initial alltr : List Track)
    (target : Nat) : List String :=
  if target ≤ initNamesEnum.length then initNamesEnum.take target
  else
    let needed := target - initNamesEnum.length
    let similarNeeded := min 30 needed
    let similar :=
      if 0 < similarNeeded ∧ initial ≠ [] then
        find_similar_tracks initial alltr initNamesEnum similarNeeded
      else []
    let f1 := initNamesEnum ++ similar
    let correlatedNeeded := min 10 (target - f1.length)
    let correlated :=
      if 0 < correlatedNeeded then
        find_correlated_tracks mood alltr (initNamesEnum ++ similar)
          correlatedNeeded
      else []
    let f2 := f1 ++ correlated
    let enlargedSeed := initial ++ alltr.filter
      (fun t => f2.contains t.name && !(initial.map Track.name).contains t.name)
    let more :=
      if f2.length < target then
        find_similar_tracks enlargedSeed alltr (initial.map Track.name ++ f2)
          (target - f2.length)
      else []
    (f2 ++ more).take target

/-- `initNamesEnum` is a legitimate runtime enumeration of the set
`{t['name'] for t in initial_tracks}`: a permutation of the deduplicated
name list (so: duplicate-free and with exactly the same members). -/
def validEnum (enum : List String) (tracks : List Track) : Prop :=
  enum.Perm (tracks.map Track.name).dedup

instance (enum : List String) (tracks : List Track) :
    Decidable (validEnum enum tracks) :=
  List.decidablePerm enum (tracks.map Track.name).dedup

/-! ## Shared scoring shape

Every scoring variant loops over the taxonomy dict, computes a per-mood
score, and stores it in the `mood_scores` dict only when `score > 0`
(web_research_final additionally skips a mood entirely when an exclusion
term matches).  `entryOf` is that loop body, `scoresOf` the resulting dict
as an association list in taxonomy order, and `scoreOf` the score the dict
exposes for a mood (0 when absent). -/

def entryOf (raw : Track → String → Int) (ex : Track → String → Bool)
    (t : Track) (m : String) : Option (String × Int) :=
  if ex t m then none
  else if 0 < raw t m then some (m, raw t m) else none

def scoresOf (order : List String) (raw : Track → String → Int)
    (ex : Track → String → Bool) (t : Track) : List (String × Int) :=
  order.filterMap (entryOf raw ex t)

def scoreOf (order : List String) (raw : Track → String → Int)
    (ex : Track → String → Bool) (t : Track) (m : String) : Int :=
  ((scoresOf order raw ex t).lookup m).getD 0

/-- Sum of an integer-valued contribution over a list (model of a Python
`for` loop accumulating `score += ...`). -/
def sumBy {α : Type} (l : List α) (f : α → Int) : Int := (l.map f).sum

/-- Maximal runs of characters satisfying `p`, as strings.  With
`fun c => !c.isWhitespace` this is Python `str.split()`; with `wordChar`
it is `re.findall(r"\b\w+\b", s)`. -/
def runsOf (p : Char → Bool) (cs : List Char) : List String :=
  let step : Char → (List Char × List String) → (List Char × List String) :=
    fun c st =>
      if p c then (c :: st.1, st.2)
      else ([], if st.1.isEmpty then st.2 else String.mk st.1 :: st.2)
  let r := cs.foldr step ([], [])
  if r.1.isEmpty then r.2 else String.mk r.1 :: r.2

def splitWs (s : String) : List String :=
  runsOf (fun c => !c.isWhitespace) s.data

def wordChar (c : Char) : Bool := c.isAlphanum || c == '_'

def findallWords (s : String) : List String := runsOf wordChar s.data

/-! ## apple_music_web_research_final.py -/

/-- `mood_categories[...]['genres']` (lines 21-68). -/
def finalGenres : String → List String
  | "Angry/Mad" =>
      ["metal", "hardcore", "punk", "nu metal", "industrial", "grunge",
       "alternative metal", "death metal", "thrash", "screamo"]
  | "Heartbreak" =>
      ["ballad", "soul", "r&b", "country", "folk", "acoustic", "blues",
       "indie"]
  | "Workout/Go Time" =>
      ["hip hop", "rap", "edm", "electronic", "dance", "house", "techno",
       "trap", "pop", "rock"]
  | "Calming" =>
      ["ambient", "new age", "meditation", "spa", "yoga", "chill", "lounge"]
  | "In Love" =>
      ["pop", "r&b", "soul", "jazz", "smooth", "ballad", "soft rock"]
  | "While Doing Homework" =>
      ["classical", "instrumental", "lo-fi", "ambient", "jazz", "piano",
       "post-rock", "cinematic", "soundtrack"]
  | _ => []

/-- `mood_categories[...]['name_keywords']`. -/
def finalNameKeywords : String → List String
  | "Angry/Mad" =>
      ["rage", "angry", "mad", "hate", "kill", "die", "war", "fight",
       "violence", "revenge", "fury", "aggressive", "scream", "break"]
  | "Heartbreak" =>
      ["heartbreak", "breakup", "goodbye", "tears", "cry", "hurt", "pain",
       "lonely", "alone", "missing", "gone", "lost", "sad", "broken",
       "leave", "away", "regret", "sorry"]
  | "Workout/Go Time" =>
      ["go", "run", "move", "jump", "fire", "hype", "pump", "energy",
       "power", "strength", "workout", "gym", "beat", "bass", "drop"]
  | "Calming" =>
      ["calm", "peace", "quiet", "still", "soft", "gentle", "soothing",
       "tranquil", "serene", "zen", "meditation", "relax"]
  | "In Love" =>
      ["love", "heart", "kiss", "hug", "together", "forever", "soulmate",
       "darling", "baby", "sweet", "tender", "romance", "devotion"]
  | "While Doing Homework" =>
      ["study", "focus", "piano", "classical", "instrumental", "no lyrics",
       "background", "concentration"]
  | _ => []

/-- `mood_categories[...]['artist_keywords']`. -/
def finalArtistKeywords : String → List String
  | "Angry/Mad" => ["metal", "hardcore", "punk", "slayer", "rage", "kill"]
  | "Heartbreak" => ["ballad", "soul", "country", "folk"]
  | "Workout/Go Time" => ["rap", "hip hop", "dj", "edm", "electronic"]
  | "Calming" => ["ambient", "meditation", "zen", "spa", "yoga"]
  | "In Love" => ["pop", "r&b", "soul", "jazz"]
  | "While Doing Homework" =>
      ["classical", "piano", "orchestra", "instrumental", "lo-fi"]
  | _ => []

/-- `mood_categories[...]['exclude_genres']`. -/
def finalExcludes : String → List String
  | "Angry/Mad" => ["pop", "ballad", "soft", "acoustic", "jazz", "classical"]
  | "Heartbreak" => ["metal", "hardcore", "punk", "edm", "dance"]
  | "Workout/Go Time" => ["ballad", "classical", "ambient", "meditation"]
  | "Calming" => ["metal", "hardcore", "punk", "rap", "hip hop"]
  | "In Love" => ["metal", "hardcore", "punk", "death metal"]
  | "While Doing Homework" => ["rap", "hip hop", "metal", "hardcore"]
  | _ => []

/-- The exclusion check of `research_song_mood` (lines 163-171): some
exclusion term is a substring of the lowercased genre field. -/
def excludedFinal (t : Track) (m : String) : Bool :=
  (finalExcludes m).any (fun g => pyIn g (lowerS t.genre))

/-- The per-mood score of `WebResearchFinalOrganizer.research_song_mood`
(lines 173-219), computed for a non-excluded mood.  The name-keyword loop
adds 10 per matching keyword and breaks after the third distinct hit, which
equals `10 * min 3 (number of matching keywords)`.  The pop-ballad special
case for Workout resets the accumulated score to 0 (line 219).  Scores are
small integer-valued floats in the source, modelled as integers. -/
def rawScoreFinal (t : Track) (m : String) : Int :=
  let nameL := lowerS t.name
  let artistL := lowerS t.artist
  let genreL := lowerS t.genre
  let sGenre : Int :=
    if (finalGenres m).any (fun g => pyIn g genreL) then 20 else 0
  let sName : Int :=
    10 * ((min 3 ((finalNameKeywords m).countP (fun k => pyIn k nameL)) : Nat) : Int)
  let sArtist : Int :=
    if (finalArtistKeywords m).any (fun k => pyIn k artistL) then 5 else 0
  let sAdele : Int :=
    if pyIn "adele" artistL && (m == "Heartbreak") then 15 else 0
  let sEdm : Int :=
    if (["dance", "edm", "electronic"].any (fun g => pyIn g genreL)) &&
        (m == "Workout/Go Time") then
      (if ["go", "run", "move", "fire", "hype", "pump", "energy"].any
          (fun kw => pyIn kw nameL) then 10 else 5)
    else 0
  let sPopLove : Int :=
    if pyIn "pop" genreL &&
        ["love", "heart", "together", "forever"].any (fun kw => pyIn kw nameL) &&
        (m == "In Love") then 15 else 0
  let sPopWork : Int :=
    if pyIn "pop" genreL && (m == "Workout/Go Time") &&
        ["go", "run", "move", "fire", "hype", "pump", "energy", "beat"].any
          (fun kw => pyIn kw nameL) then 8 else 0
  let sPopBallad : Int :=
    if pyIn "pop" genreL && pyIn "ballad" genreL && (m == "Heartbreak") then
      12 else 0
  let total := sGenre + sName + sArtist + sAdele + sEdm + sPopLove +
    sPopWork + sPopBallad
  if pyIn "pop" genreL && pyIn "ballad" genreL && (m == "Workout/Go Time")
  then 0 else total

/-- `WebResearchFinalOrganizer.research_song_mood` (lines 149-224): the
`mood_scores` dict, in taxonomy order, holding only moods that are not
excluded and scored above 0. -/
def research_song_mood (t : Track) : List (String × Int) :=
  scoresOf moodOrder rawScoreFinal excludedFinal t

/-- The score the final-variant Scorer exposes for a (track, mood) pair:
the `mood_scores` entry, or 0 when the mood is absent from the dict. -/
def scoreFinal (t : Track) (m : String) : Int :=
  scoreOf moodOrder rawScoreFinal excludedFinal t m

/-- `WebResearchFinalOrganizer.classify_track` (lines 226-251): sort the
scored moods descending (Python `sorted` is stable, so ties keep taxonomy
order), then admit the single top mood only if it scores at least 20 and,
when a runner-up exists, beats it by at least 5 points. -/
def classify_track_final (t : Track) : List String :=
  match pySortDesc (fun e => e.2) (research_song_mood t) with
  | [] => []
  | (tm, ts) :: rest =>
    if 20 ≤ ts then
      match rest with
      | [] => [tm]
      | (_, ss) :: _ => if ss + 5 ≤ ts then [tm] else []
    else []

/-! ## apple_music_web_research.py -/

/-- `mood_categories[...]['keywords']` (lines 15-46). -/
def webKeywords : String → List String
  | "Angry/Mad" =>
      ["angry", "rage", "furious", "mad", "aggressive", "intense", "heavy",
       "metal", "punk", "hardcore", "screaming", "yelling"]
  | "Heartbreak" =>
      ["sad", "heartbreak", "breakup", "lonely", "crying", "tears", "hurt",
       "broken", "loss", "goodbye", "pain"]
  | "Workout/Go Time" =>
      ["energy", "pump", "motivational", "uplifting", "intense", "fast",
       "driving", "power", "strength", "victory"]
  | "Calming" =>
      ["calm", "peaceful", "relaxing", "soothing", "gentle", "soft",
       "tranquil", "serene", "quiet", "zen"]
  | "In Love" =>
      ["love", "romantic", "sweet", "tender", "passionate", "devotion",
       "affection", "heart", "together", "forever"]
  | "While Doing Homework" =>
      ["instrumental", "focus", "concentration", "study", "background",
       "ambient", "lo-fi", "no lyrics"]
  | _ => []

/-- `mood_categories[...]['themes']`. -/
def webThemes : String → List String
  | "Angry/Mad" =>
      ["anger", "rage", "frustration", "aggression", "rebellion",
       "conflict", "hate", "violence"]
  | "Heartbreak" =>
      ["heartbreak", "breakup", "loss", "sadness", "loneliness",
       "emotional pain", "rejection", "betrayal"]
  | "Workout/Go Time" =>
      ["motivation", "energy", "power", "strength", "determination",
       "victory", "success", "winning"]
  | "Calming" =>
      ["peace", "calm", "relaxation", "tranquility", "serenity",
       "meditation", "mindfulness"]
  | "In Love" =>
      ["love", "romance", "affection", "devotion", "passion",
       "togetherness", "soulmate", "wedding"]
  | "While Doing Homework" =>
      ["focus", "concentration", "study", "productivity",
       "background music", "instrumental"]
  | _ => []

/-- `mood_categories[...]['genres']`. -/
def webGenres : String → List String
  | "Angry/Mad" =>
      ["metal", "hardcore", "punk", "rock", "alternative rock", "grunge",
       "nu metal", "industrial"]
  | "Heartbreak" =>
      ["ballad", "soul", "r&b", "country", "blues", "folk", "acoustic",
       "indie"]
  | "Workout/Go Time" =>
      ["hip hop", "rap", "edm", "electronic", "dance", "house", "techno",
       "trap", "pop"]
  | "Calming" =>
      ["ambient", "new age", "classical", "jazz", "acoustic",
       "instrumental", "lounge"]
  | "In Love" =>
      ["pop", "r&b", "soul", "jazz", "smooth", "ballad", "soft rock"]
  | "While Doing Homework" =>
      ["instrumental", "classical", "ambient", "lo-fi", "jazz", "post-rock",
       "cinematic", "soundtrack"]
  | _ => []

/-- Per-mood score of `WebResearchOrganizer.classify_song_with_research`
(lines 155-216).  `web_search_song` never reaches the network: its
`lyrics_analysis` is always `f"{name} {artist}".lower()`, a string that
contains a space and is therefore always truthy, so both the
combined-text extension and the research-data block always run. -/
def rawScoreWeb (t : Track) (m : String) : Int :=
  let nameL := lowerS t.name
  let artistL := lowerS t.artist
  let genreL := lowerS t.genre
  let lyrics := lowerS (t.name ++ " " ++ t.artist)
  let combined :=
    lowerS (t.genre ++ " " ++ t.name ++ " " ++ t.artist) ++ " " ++ lyrics
  let sKw := sumBy (webKeywords m) (fun kw =>
    (if pyIn kw nameL then 5 else 0) + (if pyIn kw artistL then 2 else 0) +
      (if pyIn kw combined then 1 else 0))
  let sTh := sumBy (webThemes m) (fun th =>
    (if pyIn th nameL then 8 else 0) + (if pyIn th combined then 3 else 0))
  let sGen : Int :=
    if genreL ≠ "" then
      sumBy (webGenres m) (fun g => if pyIn g genreL then 4 else 0)
    else 0
  let sRes : Int :=
    if lyrics ≠ "" then
      sumBy (webKeywords m) (fun kw => if pyIn kw lyrics then 3 else 0) +
        sumBy (webThemes m) (fun th => if pyIn th lyrics then 5 else 0)
    else 0
  let sWords := sumBy (splitWs nameL) (fun w =>
    (if (webKeywords m).contains w then 4 else 0) +
      (if (webThemes m).contains w then 6 else 0))
  sKw + sTh + sGen + sRes + sWords

/-- The `mood_scores` dict of `classify_song_with_research`. -/
def moodScoresWeb (t : Track) : List (String × Int) :=
  scoresOf moodOrder rawScoreWeb (fun _ _ => false) t

/-- Score exposed by the web_research Scorer (0 when absent). -/
def scoreWeb (t : Track) (m : String) : Int :=
  scoreOf moodOrder rawScoreWeb (fun _ _ => false) t m

/-- The selection loop shared by `classify_song_with_research` (cap 1) and
`classify_song_by_research` (cap 2): walk the sorted moods, append those
with `score >= top_score * 0.7`, and break as soon as the cap is reached.
The ratio test is modelled exactly on integers as `7 * top ≤ 10 * score`;
the source compares against the float product `top_score * 0.7`, which can
differ from the rational only at exact-boundary scores, and no result
proved below depends on a boundary case. -/
def selectLoop : List (String × Int) → Int → Nat → List String → List String
  | [], _, _, acc => acc
  | (m, s) :: rest, top, cap, acc =>
    let acc2 := if 7 * top ≤ 10 * s then acc ++ [m] else acc
    if cap ≤ acc2.length then acc2 else selectLoop rest top cap acc2

/-- `WebResearchOrganizer.classify_song_with_research` selection
(lines 218-233): cap 1, default `['Calming']` when nothing scored. -/
def classify_song_with_research (t : Track) : List String :=
  match pySortDesc (fun e => e.2) (moodScoresWeb t) with
  | [] => ["Calming"]
  | (m, s) :: rest =>
    let r := selectLoop ((m, s) :: rest) s 1 []
    if r.isEmpty then ["Calming"] else r

/-! ## apple_music_research_based.py -/

/-- `mood_categories[...]['keywords']` (lines 16-41). -/
def rbKeywords : String → List String
  | "Angry/Mad" =>
      ["angry", "rage", "furious", "mad", "aggressive", "intense", "heavy",
       "metal", "punk", "hardcore"]
  | "Heartbreak" =>
      ["sad", "heartbreak", "breakup", "lonely", "crying", "tears", "hurt",
       "broken", "loss"]
  | "Workout/Go Time" =>
      ["energy", "pump", "motivational", "uplifting", "intense", "fast",
       "driving", "power"]
  | "Calming" =>
      ["calm", "peaceful", "relaxing", "soothing", "gentle", "soft",
       "tranquil", "serene"]
  | "In Love" =>
      ["love", "romantic", "sweet", "tender", "passionate", "devotion",
       "affection", "heart"]
  | "While Doing Homework" =>
      ["instrumental", "focus", "concentration", "study", "background",
       "ambient", "lo-fi"]
  | _ => []

/-- `mood_categories[...]['themes']`. -/
def rbThemes : String → List String
  | "Angry/Mad" =>
      ["anger", "rage", "frustration", "aggression", "rebellion", "conflict"]
  | "Heartbreak" =>
      ["heartbreak", "breakup", "loss", "sadness", "loneliness",
       "emotional pain"]
  | "Workout/Go Time" =>
      ["motivation", "energy", "power", "strength", "determination",
       "victory"]
  | "Calming" =>
      ["peace", "calm", "relaxation", "tranquility", "serenity",
       "meditation"]
  | "In Love" =>
      ["love", "romance", "affection", "devotion", "passion",
       "togetherness"]
  | "While Doing Homework" =>
      ["focus", "concentration", "study", "productivity",
       "background music"]
  | _ => []

/-- Per-mood score of `ResearchBasedOrganizer.classify_song_by_research`
(lines 146-197).  The genre heuristics form an `elif` chain keyed on the
mood name, so at most one of them applies. -/
def rawScoreRB (t : Track) (m : String) : Int :=
  let nameL := lowerS t.name
  let genreL := lowerS t.genre
  let combined := lowerS (t.genre ++ " " ++ t.name ++ " " ++ t.artist)
  let sKw := sumBy (rbKeywords m) (fun kw => if pyIn kw combined then 2 else 0)
  let sTh := sumBy (rbThemes m) (fun th => if pyIn th combined then 3 else 0)
  let sWords := sumBy (splitWs nameL) (fun w =>
    (if (rbKeywords m).contains w then 1 else 0) +
      (if (rbThemes m).contains w then 2 else 0))
  let sGen : Int :=
    if m == "Angry/Mad" &&
        ["metal", "punk", "hardcore", "rock", "alternative"].any
          (fun g => pyIn g genreL) then 3
    else if m == "Heartbreak" &&
        ["ballad", "soul", "r&b", "country", "blues"].any
          (fun g => pyIn g genreL) then 3
    else if m == "Workout/Go Time" &&
        ["hip hop", "rap", "edm", "electronic", "dance"].any
          (fun g => pyIn g genreL) then 3
    else if m == "Calming" &&
        ["ambient", "new age", "classical", "jazz"].any
          (fun g => pyIn g genreL) then 3
    else if m == "In Love" &&
        ["pop", "r&b", "soul", "jazz", "smooth"].any
          (fun g => pyIn g genreL) then 3
    else if m == "While Doing Homework" &&
        ["instrumental", "classical", "ambient", "lo-fi"].any
          (fun g => pyIn g genreL) then 3
    else 0
  sKw + sTh + sWords + sGen

/-- The `mood_scores` dict of `classify_song_by_research`. -/
def moodScoresRB (t : Track) : List (String × Int) :=
  scoresOf moodOrder rawScoreRB (fun _ _ => false) t

/-- Score exposed by the research_based Scorer (0 when absent). -/
def scoreRB (t : Track) (m : String) : Int :=
  scoreOf moodOrder rawScoreRB (fun _ _ => false) t m

/-- `ResearchBasedOrganizer.classify_song_by_research` selection
(lines 199-214): cap 2, ratio 0.7, default `['Calming']`. -/
def classify_song_by_research (t : Track) : List String :=
  match pySortDesc (fun e => e.2) (moodScoresRB t) with
  | [] => ["Calming"]
  | (m, s) :: rest =>
    let r := selectLoop ((m, s) :: rest) s 2 []
    if r.isEmpty then ["Calming"] else r

/-! ## apple_music_smart_research.py -/

/-- `mood_categories[...]['title_keywords']` (lines 16-59). -/
def smartTitle : String → List String
  | "Angry/Mad" =>
      ["angry", "rage", "furious", "mad", "hate", "kill", "destroy",
       "fight", "war", "revenge", "scream", "yell", "fuck", "damn"]
  | "Heartbreak" =>
      ["heartbreak", "breakup", "lonely", "crying", "tears", "hurt",
       "broken", "goodbye", "leave", "alone", "sad", "pain", "miss", "lost"]
  | "Workout/Go Time" =>
      ["energy", "pump", "power", "strength", "victory", "win", "champion",
       "go", "move", "run", "fast", "fire", "burn"]
  | "Calming" =>
      ["calm", "peace", "quiet", "soft", "gentle", "serene", "tranquil",
       "zen", "meditation", "breathe", "ocean", "rain"]
  | "In Love" =>
      ["love", "romantic", "sweet", "tender", "heart", "together",
       "forever", "soulmate", "kiss", "hug", "adore", "cherish", "devotion"]
  | "While Doing Homework" =>
      ["instrumental", "study", "focus", "concentration", "background",
       "ambient", "lo-fi", "piano", "classical"]
  | _ => []

/-- `mood_categories[...]['artist_keywords']`. -/
def smartArtist : String → List String
  | "Angry/Mad" =>
      ["metal", "hardcore", "punk", "death", "slayer", "metallica",
       "disturbed"]
  | "Heartbreak" =>
      ["adele", "taylor swift", "sam smith", "billie eilish", "lana del rey"]
  | "Workout/Go Time" =>
      ["eminem", "kanye", "drake", "travis scott", "kendrick", "the weeknd"]
  | "Calming" => ["enya", "yiruma", "ludovico einaudi", "max richter"]
  | "In Love" =>
      ["ed sheeran", "bruno mars", "john legend", "alicia keys", "beyonce"]
  | "While Doing Homework" =>
      ["bach", "mozart", "beethoven", "chopin", "debussy"]
  | _ => []

/-- `mood_categories[...]['genre_keywords']`. -/
def smartGenre : String → List String
  | "Angry/Mad" =>
      ["metal", "hardcore", "punk", "rock", "alternative", "grunge",
       "industrial", "nu metal"]
  | "Heartbreak" =>
      ["ballad", "soul", "r&b", "country", "blues", "folk", "acoustic",
       "indie", "pop"]
  | "Workout/Go Time" =>
      ["hip hop", "rap", "edm", "electronic", "dance", "house", "techno",
       "trap", "pop", "rock"]
  | "Calming" =>
      ["ambient", "new age", "classical", "jazz", "acoustic",
       "instrumental", "lounge", "chill"]
  | "In Love" =>
      ["pop", "r&b", "soul", "jazz", "smooth", "ballad", "soft rock",
       "country"]
  | "While Doing Homework" =>
      ["instrumental", "classical", "ambient", "lo-fi", "jazz", "post-rock",
       "cinematic", "soundtrack", "piano"]
  | _ => []

/-- `mood_categories[...]['themes']`. -/
def smartThemes : String → List String
  | "Angry/Mad" =>
      ["anger", "rage", "frustration", "aggression", "rebellion",
       "conflict", "hate", "violence", "destruction"]
  | "Heartbreak" =>
      ["heartbreak", "breakup", "loss", "sadness", "loneliness",
       "emotional pain", "rejection", "betrayal", "separation"]
  | "Workout/Go Time" =>
      ["motivation", "energy", "power", "strength", "determination",
       "victory", "success", "winning", "achievement"]
  | "Calming" =>
      ["peace", "calm", "relaxation", "tranquility", "serenity",
       "meditation", "mindfulness", "nature"]
  | "In Love" =>
      ["love", "romance", "affection", "devotion", "passion",
       "togetherness", "soulmate", "wedding", "marriage"]
  | "While Doing Homework" =>
      ["focus", "concentration", "study", "productivity",
       "background music", "instrumental", "academic"]
  | _ => []

/-- `mood_categories[...].get('positive_words', [])`. -/
def smartPos : String → List String
  | "Workout/Go Time" =>
      ["go", "win", "power", "strength", "energy", "fire", "champion"]
  | "Calming" => ["peace", "calm", "quiet", "soft", "gentle", "serene"]
  | "In Love" => ["love", "romantic", "sweet", "heart", "together", "forever"]
  | "While Doing Homework" => ["focus", "study", "concentration"]
  | _ => []

/-- `mood_categories[...].get('negative_words', [])`. -/
def smartNeg : String → List String
  | "Angry/Mad" => ["hate", "kill", "die", "dead", "blood", "pain", "suffer"]
  | "Heartbreak" => ["cry", "tears", "hurt", "broken", "alone", "lonely",
      "sad", "pain"]
  | _ => []

/-- Per-mood score of `SmartResearchOrganizer.classify_song_smart`
(lines 133-221), penalties included: the running score can go negative, but
the `mood_scores` dict only stores it when it ends positive. -/
def rawScoreSmart (t : Track) (m : String) : Int :=
  let nameL := lowerS t.name
  let artistL := lowerS t.artist
  let genreL := lowerS t.genre
  let s1 := sumBy (smartTitle m) (fun kw => if pyIn kw nameL then 10 else 0)
  let s2 := sumBy (smartArtist m) (fun kw => if pyIn kw artistL then 8 else 0)
  let s3 := sumBy (smartGenre m) (fun kw => if pyIn kw genreL then 6 else 0)
  let s4 := sumBy (smartThemes m) (fun th => if pyIn th nameL then 12 else 0)
  let s5 := sumBy (findallWords nameL) (fun w =>
    (if (smartPos m).contains w then 3 else 0) +
      (if (smartNeg m).contains w then
        (if m == "Angry/Mad" || m == "Heartbreak" then 4 else 0) else 0))
  let sHw : Int :=
    if m == "While Doing Homework" then
      (if ["instrumental", "classical", "ambient", "piano", "orchestral"].any
          (fun g => pyIn g genreL) then 8 else 0) +
        (if ["love", "hate", "cry", "angry", "sad"].any
            (fun w => pyIn w nameL) then -5 else 0)
    else 0
  let sCalm : Int :=
    if m == "Calming" then
      (if ["rage", "fight", "kill", "angry", "scream"].any
          (fun w => pyIn w nameL) then -10 else 0)
    else 0
  let sAngry : Int :=
    if m == "Angry/Mad" then
      (if ["metal", "punk", "hardcore", "rock"].any
          (fun g => pyIn g genreL) then 5 else 0) +
        (if ["love", "calm", "peace", "gentle"].any
            (fun w => pyIn w nameL) then -8 else 0)
    else 0
  let sLove : Int :=
    if m == "In Love" then
      (if pyIn "love" nameL || pyIn "heart" nameL then 8 else 0) +
        (if ["hate", "breakup", "lonely", "sad"].any
            (fun w => pyIn w nameL) then -10 else 0)
    else 0
  let sHb : Int :=
    if m == "Heartbreak" then
      (if ["breakup", "heartbreak", "goodbye", "alone", "lonely"].any
          (fun w => pyIn w nameL) then 10 else 0) +
        (if ["ballad", "soul", "r&b", "country", "blues"].any
            (fun g => pyIn g genreL) then 5 else 0)
    else 0
  let sWo : Int :=
    if m == "Workout/Go Time" then
      (if ["hip hop", "rap", "edm", "electronic", "dance", "rock"].any
          (fun g => pyIn g genreL) then 5 else 0) +
        (if ["slow", "calm", "peace", "quiet"].any
            (fun w => pyIn w nameL) then -8 else 0)
    else 0
  s1 + s2 + s3 + s4 + s5 + sHw + sCalm + sAngry + sLove + sHb + sWo

/-- The `mood_scores` dict of `classify_song_smart`. -/
def moodScoresSmart (t : Track) : List (String × Int) :=
  scoresOf moodOrder rawScoreSmart (fun _ _ => false) t

/-- Score exposed by the smart_research Scorer (0 when absent). -/
def scoreSmart (t : Track) (m : String) : Int :=
  scoreOf moodOrder rawScoreSmart (fun _ _ => false) t m

/-- Maximum of an integer key over a list (0 for the empty list; every
score list produced above has positive entries, so on nonempty score lists
this is the top score of the dict). -/
def maxKeyBy {α : Type} (key : α → Int) (l : List α) : Int :=
  l.foldr (fun a mx => max (key a) mx) 0

/-- `top_score` of a score list: the maximal dict value. -/
def topScore (l : List (String × Int)) : Int := maxKeyBy (fun e => e.2) l

/-- The entries of a score list that attain `topScore`, in taxonomy
order. -/
def topTies (l : List (String × Int)) : List (String × Int) :=
  l.filter (fun e => decide (topScore l ≤ e.2))

/-! ## Lemmas about the shared scoring shape -/

theorem entryOf_eq_some {raw : Track → String → Int}
    {ex : Track → String → Bool} {t : Track} {m : String} {p : String × Int}
    (h : entryOf raw ex t m = some p) :
    p.1 = m ∧ 0 < p.2 ∧ p.2 = raw t m ∧ ex t m = false := by
  unfold entryOf at h
  by_cases hex : ex t m
  · simp [hex] at h
  · simp only [hex, if_false, Bool.false_eq_true] at h
    by_cases hr : 0 < raw t m
    · simp only [hr, if_true] at h
      cases h
      exact ⟨rfl, hr, rfl, by simpa using hex⟩
    · simp [hr] at h

theorem mem_scoresOf {order : List String} {raw : Track → String → Int}
    {ex : Track → String → Bool} {t : Track} {p : String × Int}
    (h : p ∈ scoresOf order raw ex t) :
    p.1 ∈ order ∧ entryOf raw ex t p.1 = some p := by
  unfold scoresOf at h
  rcases List.mem_filterMap.mp h with ⟨a, ha, he⟩
  have h1 := (entryOf_eq_some he).1
  subst h1
  exact ⟨ha, he⟩

theorem scoresOf_pos {order : List String} {raw : Track → String → Int}
    {ex : Track → String → Bool} {t : Track} {p : String × Int}
    (h : p ∈ scoresOf order raw ex t) : 0 < p.2 :=
  (entryOf_eq_some (mem_scoresOf h).2).2.1

theorem lookup_mem {β : Type} {l : List (String × β)} {m : String} {s : β}
    (h : l.lookup m = some s) : ∃ k, (k, s) ∈ l := by
  induction l with
  | nil => simp [List.lookup] at h
  | cons p rest ih =>
    rcases p with ⟨k, v⟩
    rw [List.lookup_cons] at h
    by_cases hk : m == k
    · simp only [hk] at h
      cases h
      exact ⟨k, List.mem_cons_self _ _⟩
    · simp only [Bool.not_eq_true] at hk
      simp only [hk] at h
      rcases ih h with ⟨k2, hm⟩
      exact ⟨k2, List.mem_cons_of_mem _ hm⟩

theorem scoresOf_cons (a : String) (as : List String)
    (raw : Track → String → Int) (ex : Track → String → Bool) (t : Track) :
    scoresOf (a :: as) raw ex t =
      match entryOf raw ex t a with
      | none => scoresOf as raw ex t
      | some p => p :: scoresOf as raw ex t := by
  unfold scoresOf
  rw [List.filterMap_cons]
  cases entryOf raw ex t a <;> rfl

theorem lookup_scoresOf {order : List String} {raw : Track → String → Int}
    {ex : Track → String → Bool} {t : Track} (m : String)
    (hnd : order.Nodup) :
    (scoresOf order raw ex t).lookup m =
      if m ∈ order then (entryOf raw ex t m).map Prod.snd else none := by
  induction order with
  | nil => simp [scoresOf]
  | cons a as ih =>
    rcases List.nodup_cons.mp hnd with ⟨hna, hnd2⟩
    have ih2 := ih hnd2
    rw [scoresOf_cons]
    cases he : entryOf raw ex t a with
    | none =>
      by_cases hma : m = a
      · subst hma
        rw [ih2]
        simp [hna, he]
      · rw [ih2]
        simp [List.mem_cons, hma]
    | some p =>
      obtain ⟨k, v⟩ := p
      have hk : k = a := (entryOf_eq_some he).1
      by_cases hma : m = a
      · have hmk : (m == k) = true := by
          rw [hk, hma]
          exact beq_self_eq_true a
        rw [List.lookup_cons]
        simp only [hmk]
        rw [hma, he]
        simp [List.mem_cons]
      · have hmk : (m == k) = false := by
          rw [hk]
          exact beq_eq_false_iff_ne.mpr hma
        rw [List.lookup_cons]
        simp only [hmk]
        rw [ih2]
        simp [List.mem_cons, hma]

theorem scoreOf_nonneg (order : List String) (raw : Track → String → Int)
    (ex : Track → String → Bool) (t : Track) (m : String) :
    0 ≤ scoreOf order raw ex t m := by
  unfold scoreOf
  cases h : (scoresOf order raw ex t).lookup m with
  | none => simp
  | some s =>
    rcases lookup_mem h with ⟨k, hm⟩
    have := scoresOf_pos hm
    simpa using le_of_lt this

theorem scoreOf_of_mem {order : List String} {raw : Track → String → Int}
    {ex : Track → String → Bool} {t : Track} {m : String} {s : Int}
    (hnd : order.Nodup) (h : (m, s) ∈ scoresOf order raw ex t) :
    scoreOf order raw ex t m = s := by
  have hm := mem_scoresOf h
  unfold scoreOf
  rw [lookup_scoresOf m hnd]
  simp only [hm.1, if_true]
  rw [hm.2]
  rfl

theorem mem_scoresOf_of_entry {order : List String}
    {raw : Track → String → Int} {ex : Track → String → Bool} {t : Track}
    {m : String} {p : String × Int} (hmo : m ∈ order)
    (he : entryOf raw ex t m = some p) : p ∈ scoresOf order raw ex t := by
  unfold scoresOf
  exact List.mem_filterMap.mpr ⟨m, hmo, he⟩

/-! ## Lemmas about the stable descending sort -/

theorem pySortDesc_perm {α : Type} (key : α → Int) (l : List α) :
    (pySortDesc key l).Perm l :=
  List.perm_insertionSort _ l

theorem pySortDesc_cons {α : Type} (key : α → Int) (x : α) (xs : List α) :
    pySortDesc key (x :: xs) =
      List.orderedInsert (fun a b => key b ≤ key a) x (pySortDesc key xs) :=
  rfl

theorem pySortDesc_head_max {α : Type} (key : α → Int) {l : List α} {e : α}
    {rest : List α} (h : pySortDesc key l = e :: rest) :
    ∀ b ∈ l, key b ≤ key e := by
  haveI : IsTotal α (fun a b => key b ≤ key a) :=
    ⟨fun a b => le_total (key b) (key a)⟩
  haveI : IsTrans α (fun a b => key b ≤ key a) :=
    ⟨fun _ _ _ h1 h2 => le_trans h2 h1⟩
  have hs := List.sorted_insertionSort (fun a b => key b ≤ key a) l
  rw [show l.insertionSort (fun a b => key b ≤ key a) = pySortDesc key l
    from rfl, h, List.sorted_cons] at hs
  intro b hb
  have hb2 : b ∈ e :: rest := by
    rw [← h]
    exact ((pySortDesc_perm key l).mem_iff).mpr hb
  rcases List.mem_cons.mp hb2 with hbe | hbr
  · subst hbe; exact le_refl _
  · exact hs.1 b hbr

theorem le_maxKeyBy {α : Type} (key : α → Int) {l : List α} :
    ∀ a ∈ l, key a ≤ maxKeyBy key l := by
  induction l with
  | nil => intro a ha; simp at ha
  | cons x xs ih =>
    intro a ha
    rcases List.mem_cons.mp ha with hax | haxs
    · subst hax
      exact le_max_left _ _
    · exact le_trans (ih a haxs) (le_max_right _ _)

theorem orderedInsert_front {α : Type} (key : α → Int) (x : α)
    {L : List α} (h : ∀ a ∈ L, key a ≤ key x) :
    List.orderedInsert (fun a b => key b ≤ key a) x L = x :: L := by
  cases L with
  | nil => rfl
  | cons y ys =>
    have hy : key y ≤ key x := h y (List.mem_cons_self _ _)
    simp [List.orderedInsert, hy]

theorem orderedInsert_append_left {α : Type} (key : α → Int) (x : α)
    {as : List α} (bs : List α) (h : ∀ a ∈ as, key x < key a) :
    List.orderedInsert (fun a b => key b ≤ key a) x (as ++ bs) =
      as ++ List.orderedInsert (fun a b => key b ≤ key a) x bs := by
  induction as with
  | nil => simp
  | cons a as2 ih =>
    have ha : key x < key a := h a (List.mem_cons_self _ _)
    have hna : ¬ key a ≤ key x := not_le.mpr ha
    simp only [List.cons_append, List.orderedInsert, hna, if_false]
    exact congrArg (List.cons a) (ih (fun b hb => h b (List.mem_cons_of_mem _ hb)))

theorem maxKeyBy_cons {α : Type} (key : α → Int) (x : α) (xs : List α) :
    maxKeyBy key (x :: xs) = max (key x) (maxKeyBy key xs) := rfl

theorem sortDesc_filter_prefix {α : Type} (key : α → Int) (l : List α) :
    ∃ rest, pySortDesc key l =
      l.filter (fun a => decide (maxKeyBy key l ≤ key a)) ++ rest ∧
      ∀ a ∈ rest, key a < maxKeyBy key l := by
  induction l with
  | nil => exact ⟨[], rfl, by intro a ha; simp at ha⟩
  | cons x xs ih =>
    rcases ih with ⟨r0, hr0, hlt0⟩
    by_cases hx : maxKeyBy key xs ≤ key x
    · have hM : maxKeyBy key (x :: xs) = key x := by
        rw [maxKeyBy_cons]
        exact max_eq_left hx
      have hfront : pySortDesc key (x :: xs) = x :: pySortDesc key xs := by
        rw [pySortDesc_cons]
        refine orderedInsert_front key x ?_
        intro a ha
        have : a ∈ xs := ((pySortDesc_perm key xs).mem_iff).mp ha
        exact le_trans (le_maxKeyBy key a this) hx
      rcases lt_or_eq_of_le hx with hlt | heq
      · refine ⟨pySortDesc key xs, ?_, ?_⟩
        · rw [hfront, hM, List.filter_cons]
          have hdx : decide (key x ≤ key x) = true := by simp
          rw [hdx]
          have hnil : xs.filter (fun a => decide (key x ≤ key a)) = [] := by
            rw [List.filter_eq_nil_iff]
            intro a ha
            simp only [decide_eq_true_eq]
            exact not_le.mpr (lt_of_le_of_lt (le_maxKeyBy key a ha) hlt)
          simp [hnil]
        · intro a ha
          have : a ∈ xs := ((pySortDesc_perm key xs).mem_iff).mp ha
          rw [hM]
          exact lt_of_le_of_lt (le_maxKeyBy key a this) hlt
      · refine ⟨r0, ?_, ?_⟩
        · rw [hfront, hM, List.filter_cons]
          have hdx : decide (key x ≤ key x) = true := by simp
          rw [if_pos hdx]
          rw [List.cons_append]
          refine congrArg (List.cons x) ?_
          rw [hr0, heq]
        · intro a ha
          rw [hM, ← heq]
          exact hlt0 a ha
    · have hxlt : key x < maxKeyBy key xs := not_le.mp hx
      have hM : maxKeyBy key (x :: xs) = maxKeyBy key xs := by
        rw [maxKeyBy_cons]
        exact max_eq_right (le_of_lt hxlt)
      refine ⟨List.orderedInsert (fun a b => key b ≤ key a) x r0, ?_, ?_⟩
      · rw [pySortDesc_cons, hr0, hM, List.filter_cons]
        have hdx : decide (maxKeyBy key xs ≤ key x) = false := by
          simp [hx]
        rw [hdx]
        simp only [Bool.false_eq_true, if_false]
        refine orderedInsert_append_left key x _ ?_
        intro a ha
        have := (List.mem_filter.mp ha).2
        simp only [decide_eq_true_eq] at this
        exact lt_of_lt_of_le hxlt this
      · intro a ha
        rcases (List.mem_orderedInsert _).mp ha with hax | har
        · subst hax
          rw [hM]
          exact hxlt
        · rw [hM]
          exact hlt0 a har

theorem find_similar_nil (alltr : List Track) (excl : List String)
    (target : Nat) : find_similar_tracks [] alltr excl target = [] := by
  simp [find_similar_tracks]

theorem take_if_append (f2 sim : List String) (target : Nat) :
    (f2 ++ if f2.length < target then sim else []).take target =
      (if f2.length < target then f2 ++ sim else f2).take target := by
  split
  · rfl
  · simp

theorem selectLoop_length {l : List (String × Int)} {top : Int} {cap : Nat}
    {acc : List String} (h : acc.length < cap) :
    (selectLoop l top cap acc).length ≤ cap := by
  induction l generalizing acc with
  | nil => exact le_of_lt h
  | cons p rest ih =>
    rcases p with ⟨m, s⟩
    rw [selectLoop]
    by_cases hsc : 7 * top ≤ 10 * s
    · simp only [hsc, if_true]
      by_cases hstop : cap ≤ (acc ++ [m]).length
      · simp only [hstop, if_true]
        simp only [List.length_append, List.length_singleton]
        omega
      · simp only [hstop, if_false]
        refine ih ?_
        simp only [not_le] at hstop
        exact hstop
    · simp only [hsc, if_false]
      by_cases hstop : cap ≤ acc.length
      · exact absurd h (not_lt.mpr hstop)
      · simp only [hstop, if_false]
        exact ih h

theorem sort_topTies (l : List (String × Int)) :
    ∃ rest, pySortDesc (fun e => e.2) l = topTies l ++ rest ∧
      ∀ a ∈ rest, a.2 < topScore l := by
  have h := sortDesc_filter_prefix (fun e => e.2) l
  exact h

theorem topTies_mem_eq_top {l : List (String × Int)} {p : String × Int}
    (h : p ∈ topTies l) : p ∈ l ∧ p.2 = topScore l := by
  have h1 := List.mem_filter.mp h
  refine ⟨h1.1, le_antisymm ?_ ?_⟩
  · exact le_maxKeyBy (fun e => e.2) p h1.1
  · simpa using h1.2

/-! ## Claim theorems -/

/-- C1: the claim says `expand` never returns the same item name twice, for
every corpus.  The code violates this when the corpus holds two distinct
items with the same display name (an input the data model explicitly
tolerates): both corpus entries named B match the top seed artist, both are
appended by the similarity phase, and the returned bucket contains B twice.
This theorem evaluates the code at that failing input. -/
theorem expand_duplicate_names_bug :
    expand_playlist "Angry/Mad" ["A"] [⟨"A", "x", ""⟩]
        [⟨"B", "x", ""⟩, ⟨"B", "x", ""⟩] 5 = ["A", "B", "B"] ∧
    ¬ (expand_playlist "Angry/Mad" ["A"] [⟨"A", "x", ""⟩]
        [⟨"B", "x", ""⟩, ⟨"B", "x", ""⟩] 5).Nodup ∧
    validEnum ["A"] [⟨"A", "x", ""⟩] := by decide

/-- C2: for every item and every category with an exclusion term matching
the lowercased genre field as a substring, the final-variant Scorer forces
the total score for that (item, category) pair to zero, regardless of all
other contributions: the mood is skipped before any scoring happens, so it
never enters the `mood_scores` dict. -/
theorem exclusion_forces_zero_score (t : Track) (m : String)
    (h : ∃ g ∈ finalExcludes m, pyIn g (lowerS t.genre) = true) :
    scoreFinal t m = 0 := by
  have hex : excludedFinal t m = true := by
    rcases h with ⟨g, hg, hpy⟩
    unfold excludedFinal
    exact List.any_eq_true.mpr ⟨g, hg, hpy⟩
  unfold scoreFinal scoreOf
  rw [lookup_scoresOf m (by decide)]
  by_cases hmo : m ∈ moodOrder
  · simp only [hmo, if_true]
    unfold entryOf
    rw [if_pos hex]
    rfl
  · simp [hmo]

/-- Witness for C2: the track with genre "pop punk" matches the Angry/Mad
genre term "punk" and the name keyword "rage", yet the exclusion term "pop"
vetoes the category to a score of 0. -/
theorem exclusion_forces_zero_score_w :
    scoreFinal ⟨"Rage", "", "pop punk"⟩ "Angry/Mad" = 0 :=
  exclusion_forces_zero_score ⟨"Rage", "", "pop punk"⟩ "Angry/Mad"
    ⟨"pop", by decide, by decide⟩

/-- C3: for every item and category, the affinity score each Scorer variant
exposes (the `mood_scores` dict entry, 0 when absent) is non-negative, in
all four embedded variants; each variant stores an entry only when the raw
score is strictly positive, so even the smart variant, whose raw score can
go negative through penalties, never exposes a negative score. -/
theorem scores_nonneg (t : Track) (m : String) :
    0 ≤ scoreFinal t m ∧ 0 ≤ scoreWeb t m ∧ 0 ≤ scoreRB t m ∧
    0 ≤ scoreSmart t m :=
  ⟨scoreOf_nonneg _ _ _ _ _, scoreOf_nonneg _ _ _ _ _,
   scoreOf_nonneg _ _ _ _ _, scoreOf_nonneg _ _ _ _ _⟩

/-- C4 counterexample: the claim bounds every cited selector by a
configured cap of 1-2 categories, but `classify_track` of
apple_music_expanded_playlists.py has no cap at all: a single track whose
combined text matches one keyword of each category is assigned all six. -/
theorem expanded_classifier_returns_six :
    classify_track_exp ⟨"metal sad workout calm love instrumental", "", ""⟩ =
      ["Angry/Mad", "Heartbreak", "Workout/Go Time", "Calming", "In Love",
       "While Doing Homework"] ∧
    ¬ ((classify_track_exp
        ⟨"metal sad workout calm love instrumental", "", ""⟩).length ≤ 2) := by
  decide

/-- C6: the claim says no step of expansion depends on unspecified set
iteration order.  But line 216 (`final_tracks = list(initial_names)`) turns
a Python set into a list, and the output order of `expand_playlist` follows
that enumeration: two legitimate enumerations of the same two-element seed
set produce different outputs on otherwise identical inputs.  This theorem
evaluates the code under both enumerations. -/
theorem expand_set_order_nondeterminism :
    validEnum ["A", "B"] [⟨"A", "x", ""⟩, ⟨"B", "y", ""⟩] ∧
    validEnum ["B", "A"] [⟨"A", "x", ""⟩, ⟨"B", "y", ""⟩] ∧
    expand_playlist "Angry/Mad" ["A", "B"]
        [⟨"A", "x", ""⟩, ⟨"B", "y", ""⟩] [] 3 = ["A", "B"] ∧
    expand_playlist "Angry/Mad" ["B", "A"]
        [⟨"A", "x", ""⟩, ⟨"B", "y", ""⟩] [] 3 = ["B", "A"] ∧
    expand_playlist "Angry/Mad" ["A", "B"]
        [⟨"A", "x", ""⟩, ⟨"B", "y", ""⟩] [] 3 ≠
      expand_playlist "Angry/Mad" ["B", "A"]
        [⟨"A", "x", ""⟩, ⟨"B", "y", ""⟩] [] 3 := by decide

/-- C7 counterexample: the claim (following the spec) says the second
similarity pass is seeded by the enlarged bucket.  On this input the code
(seeding the pass with the original bucket only) misses track E, which the
enlarged-seed variant modelled from the spec does add: the two functions
disagree, so the code does not implement the enlarged-seed reading. -/
theorem second_pass_not_enlarged_seed :
    expand_playlist "Angry/Mad" ["A"] [⟨"A", "x", ""⟩]
        [⟨"B", "x", "q"⟩, ⟨"E", "w", "q"⟩] 4 = ["A", "B"] ∧
    expand_playlist_enlarged_reseed "Angry/Mad" ["A"] [⟨"A", "x", ""⟩]
        [⟨"B", "x", "q"⟩, ⟨"E", "w", "q"⟩] 4 = ["A", "B", "E"] ∧
    expand_playlist "Angry/Mad" ["A"] [⟨"A", "x", ""⟩]
        [⟨"B", "x", "q"⟩, ⟨"E", "w", "q"⟩] 4 ≠
      expand_playlist_enlarged_reseed "Angry/Mad" ["A"] [⟨"A", "x", ""⟩]
        [⟨"B", "x", "q"⟩, ⟨"E", "w", "q"⟩] 4 := by decide

/-- C7 amended: when expansion is still short after the similarity phase
and the keyword-correlation fallback, `expand_playlist` runs exactly one
more similarity pass and stops; that pass is seeded by the ORIGINAL bucket
tracks (`initial`), with only the exclusion set enlarged to the original
names plus everything added so far.  Stated as a structural decomposition:
the whole function equals phases 0-2 (`expandPhase12`) followed by that one
conditional pass and the final truncation. -/
theorem expand_second_pass_structure (mood : String) (enum : List String)
    (initial alltr : List Track) (target : Nat) :
    expand_playlist mood enum initial alltr target =
      (let f2 := expandPhase12 mood enum initial alltr target
       if f2.length < target then
         f2 ++ find_similar_tracks initial alltr
           (initial.map Track.name ++ f2) (target - f2.length)
       else f2).take target := by
  unfold expand_playlist expandPhase12
  by_cases h : target ≤ enum.length
  · rw [if_pos h, if_pos h]
    have h2 : ¬ enum.length < target := not_lt.mpr h
    simp [h2]
  · rw [if_neg h, if_neg h]
    exact take_if_append _ _ _

/-- C8: the item with all-empty metadata fields scores 0 against every
category in the final variant (its `mood_scores` dict is empty), scoring
is a total function (no exception can be modelled), and `classify_track`
returns the empty list: the item is unclassified. -/
theorem empty_metadata_unclassified :
    research_song_mood ⟨"", "", ""⟩ = [] ∧
    classify_track_final ⟨"", "", ""⟩ = [] ∧
    ∀ m : String, scoreFinal ⟨"", "", ""⟩ m = 0 := by
  refine ⟨by decide, by decide, fun m => ?_⟩
  unfold scoreFinal scoreOf
  rw [show scoresOf moodOrder rawScoreFinal excludedFinal ⟨"", "", ""⟩ = []
    from by decide]
  rfl

/-- C9: the item named "Rage Against Everything" by "ScreamBand" with genre
"Hardcore Punk" scores exactly 30 against Angry/Mad in the final variant
(20 genre + 10 for the name keyword "rage"), which is at least 30, and the
selector admits that category (its floor is 20 which is at most 30). -/
theorem rage_scenario :
    30 ≤ scoreFinal
        ⟨"Rage Against Everything", "ScreamBand", "Hardcore Punk"⟩
        "Angry/Mad" ∧
    classify_track_final
        ⟨"Rage Against Everything", "ScreamBand", "Hardcore Punk"⟩ =
      ["Angry/Mad"] := by decide

/-- C10: if the current bucket is empty and the target size is at least 10,
`expand_playlist` returns at most 10 names: both similarity passes return
the empty list for an empty seed, so only the keyword-correlation fallback
(capped at 10) can contribute, and the bucket can never approach a target
of 40 from an empty start. -/
theorem expand_empty_bucket_at_most_ten (mood : String)
    (enum : List String) (alltr : List Track) (target : Nat)
    (henum : validEnum enum []) (ht : 10 ≤ target) :
    (expand_playlist mood enum [] alltr target).length ≤ 10 := by
  have he : enum = [] := by
    have h2 : enum.Perm [] := by simpa [validEnum] using henum
    exact h2.eq_nil
  subst he
  have h1 : ¬ target ≤ ([] : List String).length := by
    simp only [List.length_nil, Nat.le_zero]
    omega
  unfold expand_playlist
  rw [if_neg h1]
  simp only [ne_eq, not_true_eq_false, and_false, if_false,
    List.nil_append, List.length_nil, Nat.sub_zero, find_similar_nil,
    ite_self]
  have hmin : min 10 target = 10 := Nat.min_eq_left ht
  rw [hmin]
  have h10 : (0 : Nat) < 10 := by omega
  rw [if_pos h10]
  simp only [List.append_nil]
  have hfc : (find_correlated_tracks mood alltr [] 10).length ≤ 10 := by
    unfold find_correlated_tracks
    simp only [List.length_take]
    omega
  calc ((find_correlated_tracks mood alltr [] 10).take target).length
      ≤ (find_correlated_tracks mood alltr [] 10).length :=
        List.length_take_le' _ _
    _ ≤ 10 := hfc

/-- Witness for C10: expanding the empty Angry/Mad bucket over the empty
corpus towards target 40 yields at most 10 names. -/
theorem expand_empty_bucket_at_most_ten_w :
    (expand_playlist "Angry/Mad" [] [] [] 40).length ≤ 10 :=
  expand_empty_bucket_at_most_ten "Angry/Mad" [] [] 40 (by decide) (by decide)

/-- C4 amended: in the selector variants that configure a cap, the cap
holds: `classify_track` of the final variant returns at most 1 category,
and any category it returns scores at least the floor of 20 and is a
maximum over all categories; `classify_song_with_research` (web_research)
returns at most 1 category; `classify_song_by_research` (research_based)
returns at most 2.  The expanded-playlists classifier configures no cap
(see the C4 counterexample), so no bound below the number of categories
holds for it. -/
theorem selector_caps_and_floor (t : Track) :
    (classify_track_final t).length ≤ 1 ∧
    (∀ m, m ∈ classify_track_final t →
      20 ≤ scoreFinal t m ∧ ∀ m2, scoreFinal t m2 ≤ scoreFinal t m) ∧
    (classify_song_with_research t).length ≤ 1 ∧
    (classify_song_by_research t).length ≤ 2 := by
  have hfin_len : (classify_track_final t).length ≤ 1 := by
    unfold classify_track_final
    rcases hsort : pySortDesc (fun e => e.2) (research_song_mood t) with
      _ | ⟨⟨tm, ts⟩, rest⟩
    · rw [hsort]; simp
    · rw [hsort]
      dsimp only
      by_cases h20 : 20 ≤ ts
      · rw [if_pos h20]
        cases rest with
        | nil => simp
        | cons e2 r2 =>
          obtain ⟨m2, ss⟩ := e2
          dsimp only
          by_cases h5 : ss + 5 ≤ ts
          · rw [if_pos h5]; simp
          · rw [if_neg h5]; simp
      · rw [if_neg h20]; simp
  have hfin_mem : ∀ m, m ∈ classify_track_final t →
      20 ≤ scoreFinal t m ∧ ∀ m2, scoreFinal t m2 ≤ scoreFinal t m := by
    intro m hm
    unfold classify_track_final at hm
    rcases hsort : pySortDesc (fun e => e.2) (research_song_mood t) with
      _ | ⟨⟨tm, ts⟩, rest⟩
    · rw [hsort] at hm; simp at hm
    · rw [hsort] at hm
      dsimp only at hm
      by_cases h20 : 20 ≤ ts
      · rw [if_pos h20] at hm
        have hmtm : m = tm := by
          cases rest with
          | nil => simpa using hm
          | cons e2 r2 =>
            obtain ⟨m2, ss⟩ := e2
            dsimp only at hm
            by_cases h5 : ss + 5 ≤ ts
            · rw [if_pos h5] at hm; simpa using hm
            · rw [if_neg h5] at hm; simp at hm
        subst hmtm
        have hmem : (m, ts) ∈ research_song_mood t := by
          have hin : (m, ts) ∈ pySortDesc (fun e => e.2) (research_song_mood t) := by
            rw [hsort]; exact List.mem_cons_self _ _
          exact ((pySortDesc_perm (fun e => e.2) (research_song_mood t)).mem_iff).mp hin
        have hscore : scoreFinal t m = ts := scoreOf_of_mem (by decide) hmem
        refine ⟨by rw [hscore]; exact h20, ?_⟩
        intro m2
        rw [hscore]
        have hnn : (0 : Int) ≤ ts := le_trans (by omega) h20
        unfold scoreFinal scoreOf
        rw [lookup_scoresOf m2 (by decide)]
        by_cases hmo : m2 ∈ moodOrder
        · simp only [hmo, if_true]
          cases he : entryOf rawScoreFinal excludedFinal t m2 with
          | none => simpa using hnn
          | some p =>
            have hmem2 : p ∈ research_song_mood t := mem_scoresOf_of_entry hmo he
            have hb := pySortDesc_head_max (fun e => e.2) hsort p hmem2
            simpa using hb
        · simp only [hmo, if_false]
          simpa using hnn
      · rw [if_neg h20] at hm; simp at hm
  have hweb_len : (classify_song_with_research t).length ≤ 1 := by
    unfold classify_song_with_research
    rcases hsort : pySortDesc (fun e => e.2) (moodScoresWeb t) with
      _ | ⟨⟨m, s⟩, rest⟩
    · rw [hsort]; simp
    · rw [hsort]
      dsimp only
      have hr := @selectLoop_length ((m, s) :: rest) s 1 [] (by simp)
      by_cases hre : (selectLoop ((m, s) :: rest) s 1 []).isEmpty
      · rw [if_pos hre]; simp
      · rw [if_neg hre]; exact hr
  have hrb_len : (classify_song_by_research t).length ≤ 2 := by
    unfold classify_song_by_research
    rcases hsort : pySortDesc (fun e => e.2) (moodScoresRB t) with
      _ | ⟨⟨m, s⟩, rest⟩
    · rw [hsort]; simp
    · rw [hsort]
      dsimp only
      have hr := @selectLoop_length ((m, s) :: rest) s 2 [] (by simp)
      by_cases hre : (selectLoop ((m, s) :: rest) s 2 []).isEmpty
      · rw [if_pos hre]; simp
      · rw [if_neg hre]; exact hr
  exact ⟨hfin_len, hfin_mem, hweb_len, hrb_len⟩

/-- Witness for C4: at the Rage Against Everything track the final-variant
selector returns Angry/Mad, whose score clears the floor of 20 and
dominates every other category. -/
theorem selector_caps_and_floor_w :
    20 ≤ scoreFinal
        ⟨"Rage Against Everything", "ScreamBand", "Hardcore Punk"⟩
        "Angry/Mad" ∧
    scoreFinal ⟨"Rage Against Everything", "ScreamBand", "Hardcore Punk"⟩
        "Heartbreak" ≤
      scoreFinal ⟨"Rage Against Everything", "ScreamBand", "Hardcore Punk"⟩
        "Angry/Mad" ∧
    (classify_track_final
        ⟨"Rage Against Everything", "ScreamBand", "Hardcore Punk"⟩).length
      ≤ 1 := by
  obtain ⟨h1, h2, h3, h4⟩ := selector_caps_and_floor
    ⟨"Rage Against Everything", "ScreamBand", "Hardcore Punk"⟩
  have hm := h2 "Angry/Mad" (by decide)
  exact ⟨hm.1, hm.2 "Heartbreak", h1⟩

/-- C5 counterexample: the claim says that with cap 1 an exact tie at the
top admits the taxonomy-first category.  In the final variant the track
with genre "soul" ties Heartbreak and In Love at 20 points (both clear the
floor of 20), and the selector, which demands a 5-point lead over the
runner-up, admits nothing: it returns the empty list, not
`["Heartbreak"]`. -/
theorem final_tie_admits_none :
    research_song_mood ⟨"", "", "soul"⟩ =
      [("Heartbreak", 20), ("In Love", 20)] ∧
    classify_track_final ⟨"", "", "soul"⟩ = [] ∧
    classify_track_final ⟨"", "", "soul"⟩ ≠ ["Heartbreak"] := by decide

/-- C5 amended: when the highest-scoring categories tie exactly at the top
score, admission order follows taxonomy declaration order, and: the
web_research selector (cap 1) admits exactly the taxonomy-first tied
category; the final-variant selector (cap 1, which additionally requires a
5-point lead) admits none; the research_based selector (cap 2) admits both
tied categories, in taxonomy order. -/
theorem tie_admission (t1 t2 t3 : Track) :
    (2 ≤ (topTies (moodScoresWeb t1)).length →
      ∃ m s rest, topTies (moodScoresWeb t1) = (m, s) :: rest ∧
        classify_song_with_research t1 = [m]) ∧
    (2 ≤ (topTies (research_song_mood t2)).length →
      20 ≤ topScore (research_song_mood t2) →
      classify_track_final t2 = []) ∧
    ((topTies (moodScoresRB t3)).length = 2 →
      classify_song_by_research t3 =
        (topTies (moodScoresRB t3)).map Prod.fst) := by
  refine ⟨?_, ?_, ?_⟩
  · intro hlen
    obtain ⟨rest, hsp, hrlt⟩ := sort_topTies (moodScoresWeb t1)
    rcases htt : topTies (moodScoresWeb t1) with _ | ⟨⟨m, s⟩, tt⟩
    · rw [htt] at hlen; simp at hlen
    · refine ⟨m, s, tt, rfl, ?_⟩
      have hsort : pySortDesc (fun e => e.2) (moodScoresWeb t1) =
          (m, s) :: (tt ++ rest) := by
        rw [hsp, htt]; rfl
      have hmem : (m, s) ∈ topTies (moodScoresWeb t1) := by
        rw [htt]; exact List.mem_cons_self _ _
      have hpos : 0 < s := by
        have := (topTies_mem_eq_top hmem).1
        exact scoresOf_pos this
      unfold classify_song_with_research
      rw [hsort]
      dsimp only
      rw [selectLoop]
      have hc : 7 * s ≤ 10 * s := by omega
      rw [if_pos hc]
      simp
  · intro hlen h20
    obtain ⟨rest, hsp, hrlt⟩ := sort_topTies (research_song_mood t2)
    rcases htt : topTies (research_song_mood t2) with _ | ⟨⟨m1, s1⟩, tt⟩
    · rw [htt] at hlen; simp at hlen
    · rcases tt with _ | ⟨⟨m2, s2⟩, tt2⟩
      · rw [htt] at hlen; simp at hlen
      · have hsort : pySortDesc (fun e => e.2) (research_song_mood t2) =
            (m1, s1) :: (m2, s2) :: (tt2 ++ rest) := by
          rw [hsp, htt]; rfl
        have hm1 : (m1, s1) ∈ topTies (research_song_mood t2) := by
          rw [htt]; exact List.mem_cons_self _ _
        have hm2 : (m2, s2) ∈ topTies (research_song_mood t2) := by
          rw [htt]
          exact List.mem_cons_of_mem _ (List.mem_cons_self _ _)
        have hs1 : s1 = topScore (research_song_mood t2) :=
          (topTies_mem_eq_top hm1).2
        have hs2 : s2 = topScore (research_song_mood t2) :=
          (topTies_mem_eq_top hm2).2
        unfold classify_track_final
        rw [hsort]
        dsimp only
        rw [if_pos (by rw [hs1]; exact h20)]
        rw [if_neg (by rw [hs1, hs2]; omega)]
  · intro hlen
    obtain ⟨rest, hsp, hrlt⟩ := sort_topTies (moodScoresRB t3)
    rcases htt : topTies (moodScoresRB t3) with _ | ⟨⟨m1, s1⟩, tt⟩
    · rw [htt] at hlen; simp at hlen
    · rcases tt with _ | ⟨⟨m2, s2⟩, tt2⟩
      · rw [htt] at hlen; simp at hlen
      · rcases tt2 with _ | ⟨e3, tt3⟩
        · have hsort : pySortDesc (fun e => e.2) (moodScoresRB t3) =
              (m1, s1) :: (m2, s2) :: rest := by
            rw [hsp, htt]; rfl
          have hm1 : (m1, s1) ∈ topTies (moodScoresRB t3) := by
            rw [htt]; exact List.mem_cons_self _ _
          have hm2 : (m2, s2) ∈ topTies (moodScoresRB t3) := by
            rw [htt]
            exact List.mem_cons_of_mem _ (List.mem_cons_self _ _)
          have hs1 : s1 = topScore (moodScoresRB t3) :=
            (topTies_mem_eq_top hm1).2
          have hs2 : s2 = topScore (moodScoresRB t3) :=
            (topTies_mem_eq_top hm2).2
          have hpos : 0 < s1 := by
            have := (topTies_mem_eq_top hm1).1
            exact scoresOf_pos this
          unfold classify_song_by_research
          rw [hsort]
          dsimp only
          rw [selectLoop]
          have hc1 : 7 * s1 ≤ 10 * s1 := by omega
          rw [if_pos hc1]
          rw [if_neg (by simp : ¬ (2 ≤ (([] : List String) ++ [m1]).length))]
          rw [selectLoop]
          have hc2 : 7 * s1 ≤ 10 * s2 := by rw [hs2, ← hs1]; omega
          rw [if_pos hc2]
          rw [if_pos (by simp : 2 ≤ ((([] : List String) ++ [m1]) ++ [m2]).length)]
          simp
        · rw [htt] at hlen; simp at hlen

/-- Witness for C5: the genre-"soul" track ties Heartbreak and In Love at
the top in all three variants; web_research admits the taxonomy-first
Heartbreak, the final variant admits none, research_based admits both in
taxonomy order. -/
theorem tie_admission_w :
    classify_song_with_research ⟨"", "", "soul"⟩ = ["Heartbreak"] ∧
    classify_track_final ⟨"", "", "soul"⟩ = [] ∧
    classify_song_by_research ⟨"", "", "soul"⟩ = ["Heartbreak", "In Love"] := by
  obtain ⟨h1, h2, h3⟩ :=
    tie_admission ⟨"", "", "soul"⟩ ⟨"", "", "soul"⟩ ⟨"", "", "soul"⟩
  refine ⟨?_, h2 (by decide) (by decide), ?_⟩
  · obtain ⟨m, s, rest, he, hc⟩ := h1 (by decide)
    have hT : topTies (moodScoresWeb ⟨"", "", "soul"⟩) =
        [("Heartbreak", 4), ("In Love", 4)] := by decide
    rw [hT] at he
    injection he with hhead htail
    injection hhead with hm hs
    rw [hm]
    exact hc
  · rw [h3 (by decide)]
    decide

end MoodEngine
